import Mathlib

/-!
Shallow embedding of the reactive core of `src/van.ts` (a TypeScript
adaptation of VanJS): state cells with tracked get/set, dependency capture
(`runAndCaptureDependencies`), `bind`, `derive`, the batched flush
(`updateDoms`) with its capped derivation loop, the tree patch (`update`),
and the garbage-collection marking (`addForGarbageCollection`).

JavaScript dynamic values are modelled by the inductive `DomVal`; user
functions passed to `bind`/`derive` are modelled by the deep-embedded
expression language `Expr` whose evaluation reads and writes cells through
the same tracked accessors as the source (`stateProto`'s `get val` /
`set val`).  The mutable module-level variables of `van.ts`
(`changedStates`, `derivedStates`, `curDeps`, `curNewDerives`,
`forGarbageCollection`, scheduled timers, the document tree) are threaded
explicitly through the record `GState`.
-/

namespace Van

/-- JavaScript runtime values relevant to the engine: `undefined`, `null`,
numbers (with `NaN` separate so that strict equality can be faithful:
`NaN !== NaN`), DOM nodes (by identity), and the `alwaysConnectedDom`
sentinel object. -/
inductive DomVal where
  | undef
  | null
  | num (n : Int)
  | nan
  | node (id : Nat)
  | always
deriving DecidableEq, Repr

/-- JavaScript strict equality `===` on the modelled values.
`NaN !== NaN`; objects compare by identity. -/
def jsEq : DomVal → DomVal → Bool
  | .undef, .undef => true
  | .null, .null => true
  | .num a, .num b => a == b
  | .node i, .node j => i == j
  | .always, .always => true
  | _, _ => false

/-- JavaScript nullish test (`x == null`), used by the `??` operator. -/
def nullish : DomVal → Bool
  | .undef => true
  | .null => true
  | _ => false

/-- JavaScript truthiness of the modelled values. -/
def truthy : DomVal → Bool
  | .undef => false
  | .null => false
  | .nan => false
  | .num n => n != 0
  | .node _ => true
  | .always => true

/-- JavaScript `ToNumber` on the modelled values, `none` meaning `NaN`. -/
def toNum : DomVal → Option Int
  | .num n => some n
  | .null => some 0
  | _ => none

/-- JavaScript multiplication on the modelled values. -/
def jsMul (a b : DomVal) : DomVal :=
  match toNum a, toNum b with
  | some x, some y => .num (x * y)
  | _, _ => .nan

/-- Deep embedding of the user functions passed to `bind` and `derive`:
they may read cells through the tracked getters (`val`, `oldVal`), assign
cells through the tracked setter, do arithmetic, sequence effects and
throw.  `theArg` is the argument `bind` passes to the render function. -/
inductive Expr where
  | lit (v : DomVal)
  | theArg
  | readVal (c : Nat)
  | readOld (c : Nat)
  | assign (c : Nat) (e : Expr)
  | mul (a b : Expr)
  | seq (a b : Expr)
  | throwErr
deriving DecidableEq, Repr

/-- A user function is an expression body; `Fn` keeps the source's notion
of the `f` stored in bindings and listeners. -/
abbrev Fn := Expr

/-- A state cell: `rawVal`, `_oldVal` and the two subscriber collections,
exactly the fields of `State<T>` in `van.ts` (subscribers stored by id
into the global stores). -/
structure Cell where
  rawVal : DomVal
  _oldVal : DomVal
  _bindings : List Nat
  _listeners : List Nat
deriving DecidableEq, Repr

/-- A listener (derivation subscriber): `{f, s, _dom}` of `van.ts`. -/
structure Listener where
  f : Fn
  s : Nat
  _dom : DomVal
deriving DecidableEq, Repr

/-- A binding (UI subscriber): `{f, _dom}` of `van.ts`. -/
structure Binding where
  f : Fn
  _dom : DomVal
deriving DecidableEq, Repr

/-- A dependency set `{_getters, _setters}` captured during one tracked
call; JavaScript `Set` insertion order is modelled by duplicate-free
lists. -/
structure Deps where
  _getters : List Nat
  _setters : List Nat
deriving DecidableEq, Repr

/-- The two timer callbacks the engine schedules via `setTimeout`:
the flush (`updateDoms`) and the garbage-collection sweep. -/
inductive TimerKind where
  | update
  | gc
deriving DecidableEq, Repr

/-- The whole mutable world of `van.ts`: the cell heap, the listener and
binding stores (ids are indices, stores only grow), the module-level
variables `changedStates`, `derivedStates`, `forGarbageCollection`,
`curDeps`, `curNewDerives`, the pending `setTimeout` callbacks in order,
the set of node ids attached to the document, and a fresh-node counter. -/
structure GState where
  cells : List Cell
  listeners : List Listener
  bindings : List Binding
  changedStates : Option (List Nat)
  derivedStates : Option (List Nat)
  forGC : Option (List Nat)
  curDeps : Option Deps
  curNewDerives : Option (List Nat)
  timers : List TimerKind
  doc : List Nat
  nextNode : Nat
deriving DecidableEq, Repr

/-- The default cell used for out-of-range reads (never hit in faithful
executions, where every cell id indexes the heap). -/
def defaultCell : Cell := ⟨.undef, .undef, [], []⟩

/-- Read cell `c` from the heap. -/
def cellAt (st : GState) (c : Nat) : Cell := st.cells.getD c defaultCell

/-- Read listener `l` from the store. -/
def listenerAt (st : GState) (l : Nat) : Listener :=
  st.listeners.getD l ⟨.lit .undef, 0, .undef⟩

/-- Read binding `b` from the store. -/
def bindingAt (st : GState) (b : Nat) : Binding :=
  st.bindings.getD b ⟨.lit .undef, .undef⟩

/-- Replace cell `c` in the heap by `g` applied to it. -/
def modifyCell (c : Nat) (g : Cell → Cell) (st : GState) : GState :=
  { st with cells := st.cells.set c (g (cellAt st c)) }

/-- JavaScript `Set.add` on an insertion-ordered duplicate-free list. -/
def setInsert (l : List Nat) (x : Nat) : List Nat :=
  if x ∈ l then l else l ++ [x]

/-- Model of `addAndScheduleOnFirst`: when the batch is absent, schedule
the callback and start a fresh set; always insert the element. -/
def addAndScheduleOnFirst (set? : Option (List Nat)) (s : Nat)
    (t : TimerKind) (timers : List TimerKind) : List Nat × List TimerKind :=
  match set? with
  | none => ([s], timers ++ [t])
  | some l => (setInsert l s, timers)

/-- Model of `curDeps?._getters?.add(this)` in the `val`/`oldVal` getters. -/
def addGetterDep (c : Nat) (st : GState) : GState :=
  match st.curDeps with
  | none => st
  | some d => { st with curDeps := some { d with _getters := setInsert d._getters c } }

/-- Model of `curDeps?._setters?.add(this)` in the `val` setter. -/
def addSetterDep (c : Nat) (st : GState) : GState :=
  match st.curDeps with
  | none => st
  | some d => { st with curDeps := some { d with _setters := setInsert d._setters c } }

/-- Model of `derivedStates?.add(this)`: a no-op while `derivedStates`
is still `undefined`. -/
def addDerivedState (c : Nat) (st : GState) : GState :=
  match st.derivedStates with
  | none => st
  | some l => { st with derivedStates := some (setInsert l c) }

/-- Model of
`changedStates = addAndScheduleOnFirst(changedStates, this, updateDoms)`. -/
def scheduleChanged (c : Nat) (st : GState) : GState :=
  let p := addAndScheduleOnFirst st.changedStates c .update st.timers
  { st with changedStates := some p.1, timers := p.2 }

/-- Model of `stateProto`'s `set val`: record the setter dependency; on a
strict-inequality change update `rawVal`, then either batch the cell for
the next flush (when it has at least one binding or listener) or commit
`_oldVal` immediately. -/
def setVal (c : Nat) (v : DomVal) (st0 : GState) : GState :=
  let st := addSetterDep c st0
  if jsEq v (cellAt st c).rawVal then st
  else
    let st1 := modifyCell c (fun cc => { cc with rawVal := v }) st
    if (cellAt st1 c)._bindings.length + (cellAt st1 c)._listeners.length ≠ 0 then
      scheduleChanged c (addDerivedState c st1)
    else
      modifyCell c (fun cc => { cc with _oldVal := v }) st1

/-- Evaluate a tracked user function body.  `none` in the first component
means the evaluation threw; effects performed before the throw persist in
the returned state, as in JavaScript.  Cell reads and writes go through
the tracked accessors (`addGetterDep` mirrors `get val`/`get oldVal`,
`setVal` mirrors `set val`). -/
def evalExpr (arg : DomVal) : Expr → GState → Option DomVal × GState
  | .lit v, st => (some v, st)
  | .theArg, st => (some arg, st)
  | .readVal c, st =>
    let st := addGetterDep c st
    (some (cellAt st c).rawVal, st)
  | .readOld c, st =>
    let st := addGetterDep c st
    (some (cellAt st c)._oldVal, st)
  | .assign c e, st =>
    match evalExpr arg e st with
    | (none, st) => (none, st)
    | (some v, st) => (some v, setVal c v st)
  | .mul a b, st =>
    match evalExpr arg a st with
    | (none, st) => (none, st)
    | (some va, st) =>
      match evalExpr arg b st with
      | (none, st) => (none, st)
      | (some vb, st) => (some (jsMul va vb), st)
  | .seq a b, st =>
    match evalExpr arg a st with
    | (none, st) => (none, st)
    | (some _, st) => evalExpr arg b st
  | .throwErr, st => (none, st)

/-- Model of `runAndCaptureDependencies`: save the current dependency set,
install a fresh one, run the function; a thrown error is reported and the
input argument is returned unchanged; the previous dependency set is
restored in all cases.  The captured dependency set is returned to the
caller (in the source the caller passes in the set object and reads it
back after the call). -/
def runAndCaptureDependencies (f : Fn) (arg : DomVal) (st0 : GState) :
    DomVal × Deps × GState :=
  let prev := st0.curDeps
  let st := { st0 with curDeps := some ⟨[], []⟩ }
  let r := evalExpr arg f st
  let captured := r.2.curDeps.getD ⟨[], []⟩
  let res := match r.1 with
    | some v => v
    | none => arg
  (res, captured, { r.2 with curDeps := prev })

/-- Is a `_dom` anchor connected?  Models `b._dom?.isConnected`: a real
node is connected when it is attached to the document; the
`alwaysConnectedDom` sentinel is always connected; `undefined`, `null`
and primitive values are not. -/
def isConnectedDom (st : GState) (d : DomVal) : Bool :=
  match d with
  | .node i => decide (i ∈ st.doc)
  | .always => true
  | _ => false

/-- Model of `keepConnected` on a cell's `_listeners`. -/
def keepConnectedListeners (st : GState) (l : List Nat) : List Nat :=
  l.filter (fun lid => isConnectedDom st (listenerAt st lid)._dom)

/-- Model of `keepConnected` on a cell's `_bindings`. -/
def keepConnectedBindings (st : GState) (l : List Nat) : List Nat :=
  l.filter (fun bid => isConnectedDom st (bindingAt st bid)._dom)

/-- Model of `addForGarbageCollection`: mark the cell for the liveness
sweep, scheduling the sweep timer when the mark set was absent. -/
def addForGarbageCollection (d : Nat) (st : GState) : GState :=
  let p := addAndScheduleOnFirst st.forGC d .gc st.timers
  { st with forGC := some p.1, timers := p.2 }

/-- The registration loop shared by `bind` and `derive`: for every getter
dependency not also a setter dependency of the same call, mark the cell
for garbage collection and push the new subscriber (`upd` appends it to
the right collection). -/
def registerSubscribers (upd : Cell → Cell) (getters setters : List Nat)
    (st : GState) : GState :=
  getters.foldl
    (fun st d =>
      if d ∈ setters then st
      else modifyCell d upd (addForGarbageCollection d st))
    st

/-- The registration loop of `bind` (`d._bindings.push(binding)`). -/
def registerBindings (getters setters : List Nat) (bid : Nat)
    (st : GState) : GState :=
  registerSubscribers
    (fun c => { c with _bindings := c._bindings ++ [bid] }) getters setters st

/-- The registration loop of `derive` (`d._listeners.push(listener)`). -/
def registerListeners (getters setters : List Nat) (lid : Nat)
    (st : GState) : GState :=
  registerSubscribers
    (fun c => { c with _listeners := c._listeners ++ [lid] }) getters setters st

/-- The anchor computation of `derive`:
`dom ?? curNewDerives?.push(listener) ?? alwaysConnectedDom`.
JavasScript `push` returns the new length of the array, a number, which
becomes the transient `_dom` until the enclosing `bind` overwrites it. -/
def deriveAnchor (dom : DomVal) (lid : Nat) (st : GState) : DomVal × GState :=
  if nullish dom then
    match st.curNewDerives with
    | some lst => (.num (lst.length + 1), { st with curNewDerives := some (lst ++ [lid]) })
    | none => (.always, st)
  else (dom, st)

/-- Model of `state(initVal)`: allocate a fresh cell with `rawVal` and
`_oldVal` both the initial value and empty subscriber lists; returns its
id. -/
def state (initVal : DomVal) (st : GState) : Nat × GState :=
  (st.cells.length, { st with cells := st.cells ++ [⟨initVal, initVal, [], []⟩] })

/-- The listener creation of `derive`: compute the anchor and append the
new listener `{f, s, _dom}` to the store (its id is the store's previous
length). -/
def deriveSetup (f : Fn) (s : Nat) (dom : DomVal) (st : GState) : GState :=
  let a := deriveAnchor dom st.listeners.length st
  { a.2 with listeners := a.2.listeners ++ [(⟨f, s, a.1⟩ : Listener)] }

/-- The state in which `derive`'s tracked call evaluates its function:
after listener creation, with a fresh current dependency set installed. -/
def derivePre (f : Fn) (s : Nat) (dom : DomVal) (st : GState) : GState :=
  { deriveSetup f s dom st with curDeps := some ⟨[], []⟩ }

/-- Model of `derive(f, s, dom)`: allocate the target cell when absent,
create the listener with its anchor, run `f` under dependency capture
(the argument being `s.rawVal`), write the result through the normal
setter path, then register the listener into every getter-not-setter
dependency.  Returns the target cell id. -/
def derive (f : Fn) (sOpt : Option Nat) (dom : DomVal) (st0 : GState) :
    Nat × GState :=
  let p := match sOpt with
    | some s => (s, st0)
    | none => state .undef st0
  let s := p.1
  let st := deriveSetup f s dom p.2
  let arg := (cellAt st s).rawVal
  let r := runAndCaptureDependencies f arg st
  let st := setVal s r.1 r.2.2
  (s, registerListeners r.2.1._getters r.2.1._setters p.2.listeners.length st)

/-- The result coercion of `bind`:
`(newDom ?? document).nodeType ? newDom : new Text(newDom)`.
`null`/`undefined` fall back to `document`, whose `nodeType` (9) is
truthy, so they pass through unchanged; nodes pass through; every other
value lacks a `nodeType` and is wrapped in a fresh `Text` node. -/
def coerceToNode (d : DomVal) (st : GState) : DomVal × GState :=
  match d with
  | .null => (.null, st)
  | .undef => (.undef, st)
  | .node i => (.node i, st)
  | _ => (.node st.nextNode, { st with nextNode := st.nextNode + 1 })

/-- Set a listener's `_dom` field. -/
def setListenerDom (lid : Nat) (d : DomVal) (st : GState) : GState :=
  { st with listeners := st.listeners.set lid { listenerAt st lid with _dom := d } }

/-- Set a binding's `_dom` field. -/
def setBindingDom (bid : Nat) (d : DomVal) (st : GState) : GState :=
  { st with bindings := st.bindings.set bid { bindingAt st bid with _dom := d } }

/-- Model of `bind(f, dom)`: create the binding, save and clear the
pending-new-derivations list, run `f` under dependency capture, coerce
the result, register the binding into every getter-not-setter dependency,
give every derivation created during the render the resulting node as its
anchor, restore the pending list, store the node on the binding and
return it. -/
def bind (f : Fn) (dom : DomVal) (st0 : GState) : DomVal × GState :=
  let bid := st0.bindings.length
  let st := { st0 with bindings := st0.bindings ++ [(⟨f, .undef⟩ : Binding)] }
  let prevNewDerives := st.curNewDerives
  let st := { st with curNewDerives := some [] }
  let r := runAndCaptureDependencies f dom st
  let c := coerceToNode r.1 r.2.2
  let newDom := c.1
  let st := registerBindings r.2.1._getters r.2.1._setters bid c.2
  let st := (st.curNewDerives.getD []).foldl
    (fun st lid => setListenerDom lid newDom st) st
  let st := { st with curNewDerives := prevNewDerives }
  (newDom, setBindingDom bid newDom st)

/-- Model of `update(dom, newDom)` (the tree patch):
`newDom ? newDom !== dom && dom.replaceWith(newDom) : dom.remove()`.
The document is a flat list of attached node ids; `replaceWith`
substitutes in place, `remove` detaches; replacing a node that is not
attached is a no-op by construction. -/
def update (dom newDom : DomVal) (st : GState) : GState :=
  if truthy newDom then
    if jsEq newDom dom then st
    else
      match dom with
      | .node o =>
        match newDom with
        | .node n => { st with doc := st.doc.map (fun x => if x = o then n else x) }
        | _ =>
          let fid := st.nextNode
          { st with nextNode := fid + 1
                    doc := st.doc.map (fun x => if x = o then fid else x) }
      | _ => st
  else
    match dom with
    | .node o => { st with doc := st.doc.filter (fun x => x ≠ o) }
    | _ => st

/-- Construction of a JavaScript `Set` from a list: keep the first
occurrence of each element, preserving insertion order. -/
def setDedup (l : List Nat) : List Nat := l.foldl setInsert []

/-- The flatMap-with-pruning of the derivation phase:
`derivedStatesArray.flatMap(s => s._listeners = keepConnected(s._listeners))`.
Each changed cell's `_listeners` is replaced by its connected survivors,
and the survivors are concatenated in order. -/
def pruneListeners (arr : List Nat) (st : GState) : GState × List Nat :=
  arr.foldl
    (fun p s =>
      let pruned := keepConnectedListeners p.1 (cellAt p.1 s)._listeners
      (modifyCell s (fun c => { c with _listeners := pruned }) p.1, p.2 ++ pruned))
    (st, [])

/-- The deduplicated listener work list of one derivation-phase
iteration (the `new Set(...)` the source iterates over). -/
def listenerQueue (arr : List Nat) (st : GState) : List Nat :=
  setDedup (pruneListeners arr st).2

/-- Processing of one surviving listener in the derivation phase:
`derive(l.f, l.s, l._dom), l._dom = _undefined`. -/
def processListener (st : GState) (lid : Nat) : GState :=
  let l := listenerAt st lid
  let st := (derive l.f (some l.s) l._dom st).2
  setListenerDom lid .undef st

/-- One iteration of the derivation phase: reset `derivedStates` to a
fresh empty set, prune every changed cell's listeners, and re-run each
surviving listener exactly once. -/
def derivePhaseBody (st0 : GState) (arr : List Nat) : GState :=
  let st := { st0 with derivedStates := some ([] : List Nat) }
  (listenerQueue arr st).foldl processListener (pruneListeners arr st).1

/-- The capped do-while loop of the derivation phase.  The source counts
iterations up (`++iter < 100`); here the remaining budget `fuel`
(entered with 100, so `fuel = 100 - iter`) counts down structurally.
Returns the final state and the number of body executions. -/
def deriveLoopGo (st : GState) (arr : List Nat) (fuel : Nat) : GState × Nat :=
  match fuel with
  | 0 => (st, 0)
  | f + 1 =>
    let st' := derivePhaseBody st arr
    let arr' := st'.derivedStates.getD []
    if f ≠ 0 ∧ arr' ≠ [] then
      let r := deriveLoopGo st' arr' f
      (r.1, r.2 + 1)
    else (st', 1)

/-- The `rawVal !== _oldVal` filter applied to the pending
`changedStates` batch (an absent batch filters to the empty list). -/
def changedFiltered (st : GState) : List Nat :=
  (st.changedStates.getD []).filter
    (fun s => !(jsEq (cellAt st s).rawVal (cellAt st s)._oldVal))

/-- The state after the derivation phase of a flush (cap 100). -/
def afterDerivePhase (st : GState) : GState :=
  (deriveLoopGo st (changedFiltered st) 100).1

/-- The final changed-and-differing set of a flush: the `rawVal !==
_oldVal` filter re-applied after the derivation phase has settled. -/
def finalChanged (st : GState) : List Nat :=
  changedFiltered (afterDerivePhase st)

/-- The flatMap-with-pruning of the binding phase:
`changedStatesArray.flatMap(s => s._bindings = keepConnected(s._bindings))`. -/
def pruneBindings (arr : List Nat) (st : GState) : GState × List Nat :=
  arr.foldl
    (fun p s =>
      let pruned := keepConnectedBindings p.1 (cellAt p.1 s)._bindings
      (modifyCell s (fun c => { c with _bindings := pruned }) p.1, p.2 ++ pruned))
    (st, [])

/-- The deduplicated binding work list of the binding phase. -/
def bindingQueue (arr : List Nat) (st : GState) : List Nat :=
  setDedup (pruneBindings arr st).2

/-- Processing of one surviving binding in the binding phase:
`b._dom && update(b._dom, bind(b.f, b._dom)), b._dom = _undefined`. -/
def processBinding (st : GState) (bid : Nat) : GState :=
  let b := bindingAt st bid
  let st :=
    if truthy b._dom then
      let r := bind b.f b._dom st
      update b._dom r.1 r.2
    else st
  setBindingDom bid .undef st

/-- The binding phase of a flush: prune, deduplicate, re-render each
surviving binding once and patch its node. -/
def bindingPhase (st : GState) (arr : List Nat) : GState :=
  (bindingQueue arr st).foldl processBinding (pruneBindings arr st).1

/-- The commit step of a flush: `for (let s of changedStatesArray)
s._oldVal = s.rawVal`. -/
def commitOldVals (st : GState) (arr : List Nat) : GState :=
  arr.foldl
    (fun st s => modifyCell s (fun c => { c with _oldVal := c.rawVal }) st) st

/-- Model of `updateDoms`, the scheduled flush: run the capped derivation
phase on the changed-and-differing cells, recompute the changed set,
clear the pending batch, run the binding phase, then commit `_oldVal :=
rawVal` for every cell of the final changed set. -/
def updateDoms (st : GState) : GState :=
  let st1 := afterDerivePhase st
  let arr := changedFiltered st1
  let st2 := bindingPhase { st1 with changedStates := none } arr
  commitOldVals st2 arr

/-- Model of `hydrate(dom, f)`: `update(dom, bind(f, dom))`. -/
def hydrate (dom : DomVal) (f : Fn) (st : GState) : GState :=
  let r := bind f dom st
  update dom r.1 r.2

/-- The empty initial world: no cells, no subscribers, every module-level
variable `undefined`, nothing scheduled, an empty document. -/
def initState : GState :=
  ⟨[], [], [], none, none, none, none, none, [], [], 0⟩

/-- The concrete scenario of the spec: a cell `a` (id 0, initial value
1). -/
def scenarioA : Nat × GState := state (.num 1) initState

/-- The derivation `b = derive(() => a.val * 2)` (cell id 1). -/
def scenarioDerive : Nat × GState :=
  derive (.mul (.readVal 0) (.lit (.num 2))) none .undef scenarioA.2

/-- The scenario state after the assignment `a.val = 5` (flush pending). -/
def scenarioAfterSet : GState := setVal 0 (.num 5) scenarioDerive.2

/-- The scenario state after the scheduled flush has run. -/
def scenarioFinal : GState := updateDoms scenarioAfterSet

/-! Helper lemmas. -/

theorem jsEq_eq {a b : DomVal} (h : jsEq a b = true) : a = b := by
  cases a <;> cases b <;> simp [jsEq] at h ⊢ <;> omega

theorem mem_setInsert {l : List Nat} {x a : Nat} :
    x ∈ setInsert l a ↔ x ∈ l ∨ x = a := by
  by_cases h : a ∈ l
  · simp only [setInsert, if_pos h]
    constructor
    · exact Or.inl
    · rintro (hx | rfl) <;> assumption
  · simp [setInsert, if_neg h]

theorem nodup_setInsert {l : List Nat} {a : Nat} (h : l.Nodup) :
    (setInsert l a).Nodup := by
  by_cases hm : a ∈ l
  · simpa [setInsert, if_pos hm]
  · simp [setInsert, if_neg hm, List.nodup_append, h, List.disjoint_singleton, hm]

theorem nodup_foldl_setInsert (l : List Nat) :
    ∀ acc : List Nat, acc.Nodup → (l.foldl setInsert acc).Nodup := by
  induction l with
  | nil => intro acc h; simpa using h
  | cons a t ih => intro acc h; exact ih _ (nodup_setInsert h)

theorem nodup_setDedup (l : List Nat) : (setDedup l).Nodup :=
  nodup_foldl_setInsert l [] List.nodup_nil

theorem cells_modifyCell (c : Nat) (g : Cell → Cell) (st : GState) :
    (modifyCell c g st).cells.length = st.cells.length := by
  simp [modifyCell]

theorem cellAt_modifyCell_self {c : Nat} {st : GState} (g : Cell → Cell)
    (h : c < st.cells.length) :
    cellAt (modifyCell c g st) c = g (cellAt st c) := by
  simp [cellAt, modifyCell, List.getD_eq_getElem?_getD, List.getElem?_set_self h]

theorem modifyCell_of_le {c : Nat} {st : GState} (g : Cell → Cell)
    (h : st.cells.length ≤ c) :
    modifyCell c g st = st := by
  simp [modifyCell, List.set_eq_of_length_le h]

theorem cellAt_modifyCell_ne {c d : Nat} (g : Cell → Cell) (st : GState)
    (h : c ≠ d) :
    cellAt (modifyCell c g st) d = cellAt st d := by
  simp [cellAt, modifyCell, List.getD_eq_getElem?_getD, List.getElem?_set_ne h]

theorem cellAt_default {c : Nat} {st : GState} (h : st.cells.length ≤ c) :
    cellAt st c = defaultCell := by
  simp [cellAt, List.getD_eq_getElem?_getD, List.getElem?_eq_none h]

theorem addSetterDep_cells (c : Nat) (st : GState) :
    (addSetterDep c st).cells = st.cells := by
  cases h : st.curDeps <;> simp [addSetterDep, h]

theorem addSetterDep_changedStates (c : Nat) (st : GState) :
    (addSetterDep c st).changedStates = st.changedStates := by
  cases h : st.curDeps <;> simp [addSetterDep, h]

theorem addSetterDep_derivedStates (c : Nat) (st : GState) :
    (addSetterDep c st).derivedStates = st.derivedStates := by
  cases h : st.curDeps <;> simp [addSetterDep, h]

theorem addSetterDep_timers (c : Nat) (st : GState) :
    (addSetterDep c st).timers = st.timers := by
  cases h : st.curDeps <;> simp [addSetterDep, h]

theorem addSetterDep_forGC (c : Nat) (st : GState) :
    (addSetterDep c st).forGC = st.forGC := by
  cases h : st.curDeps <;> simp [addSetterDep, h]

theorem cellAt_addSetterDep (c d : Nat) (st : GState) :
    cellAt (addSetterDep c st) d = cellAt st d := by
  simp [cellAt, addSetterDep_cells]

theorem addDerivedState_cells (c : Nat) (st : GState) :
    (addDerivedState c st).cells = st.cells := by
  cases h : st.derivedStates <;> simp [addDerivedState, h]

theorem cellAt_addDerivedState (c d : Nat) (st : GState) :
    cellAt (addDerivedState c st) d = cellAt st d := by
  simp [cellAt, addDerivedState_cells]

theorem scheduleChanged_cells (c : Nat) (st : GState) :
    (scheduleChanged c st).cells = st.cells := by
  simp [scheduleChanged]

theorem cellAt_scheduleChanged (c d : Nat) (st : GState) :
    cellAt (scheduleChanged c st) d = cellAt st d := by
  simp [cellAt, scheduleChanged_cells]

theorem scheduleChanged_changedStates (c : Nat) (st : GState) :
    (scheduleChanged c st).changedStates =
      some (setInsert (st.changedStates.getD []) c) := by
  cases h : st.changedStates <;> simp [scheduleChanged, addAndScheduleOnFirst, h, setInsert]

theorem scheduleChanged_timers (c : Nat) (st : GState) :
    (scheduleChanged c st).timers =
      (match st.changedStates with
       | none => st.timers ++ [TimerKind.update]
       | some _ => st.timers) := by
  cases h : st.changedStates <;> simp [scheduleChanged, addAndScheduleOnFirst, h]

theorem scheduleChanged_derivedStates (c : Nat) (st : GState) :
    (scheduleChanged c st).derivedStates = st.derivedStates := by
  simp [scheduleChanged]

theorem addDerivedState_changedStates (c : Nat) (st : GState) :
    (addDerivedState c st).changedStates = st.changedStates := by
  cases h : st.derivedStates <;> simp [addDerivedState, h]

theorem addDerivedState_timers (c : Nat) (st : GState) :
    (addDerivedState c st).timers = st.timers := by
  cases h : st.derivedStates <;> simp [addDerivedState, h]

theorem addDerivedState_spec (c : Nat) (st : GState) :
    (addDerivedState c st).derivedStates =
      (match st.derivedStates with
       | none => none
       | some l => some (setInsert l c)) := by
  cases h : st.derivedStates <;> simp [addDerivedState, h]

theorem modifyCell_changedStates (c : Nat) (g : Cell → Cell) (st : GState) :
    (modifyCell c g st).changedStates = st.changedStates := rfl

theorem modifyCell_derivedStates (c : Nat) (g : Cell → Cell) (st : GState) :
    (modifyCell c g st).derivedStates = st.derivedStates := rfl

theorem modifyCell_timers (c : Nat) (g : Cell → Cell) (st : GState) :
    (modifyCell c g st).timers = st.timers := rfl

/-- Characterization of the cell written by a changing `set val`. -/
theorem cellAt_setVal_self (st : GState) (s : Nat) (v : DomVal)
    (hlen : s < st.cells.length)
    (hne : jsEq v (cellAt st s).rawVal = false) :
    cellAt (setVal s v st) s =
      (if (cellAt st s)._bindings.length + (cellAt st s)._listeners.length ≠ 0 then
        { cellAt st s with rawVal := v }
      else { cellAt st s with rawVal := v, _oldVal := v }) := by
  have hl1 : s < (addSetterDep s st).cells.length := by rw [addSetterDep_cells]; exact hlen
  have h1 : cellAt (modifyCell s (fun cc => { cc with rawVal := v }) (addSetterDep s st)) s
      = { cellAt st s with rawVal := v } := by
    rw [cellAt_modifyCell_self _ hl1, cellAt_addSetterDep]
  simp only [setVal, cellAt_addSetterDep, hne, Bool.false_eq_true, if_false, h1]
  by_cases hsub : (cellAt st s)._bindings.length + (cellAt st s)._listeners.length ≠ 0
  · simp only [hsub, if_true, if_pos hsub, cellAt_scheduleChanged, cellAt_addDerivedState, h1]
  · simp only [hsub, if_neg hsub, if_false]
    rw [cellAt_modifyCell_self _ (by rw [cells_modifyCell]; exact hl1), h1]

/-- The module-level scheduling fields after a changing `set val` on a
subscribed cell. -/
theorem setVal_sched (st : GState) (s : Nat) (v : DomVal)
    (hlen : s < st.cells.length)
    (hne : jsEq v (cellAt st s).rawVal = false)
    (hsub : (cellAt st s)._bindings.length + (cellAt st s)._listeners.length ≠ 0) :
    (setVal s v st).changedStates = some (setInsert (st.changedStates.getD []) s) ∧
    ((setVal s v st).derivedStates =
      (match st.derivedStates with
       | none => none
       | some l => some (setInsert l s))) ∧
    ((setVal s v st).timers =
      (match st.changedStates with
       | none => st.timers ++ [TimerKind.update]
       | some _ => st.timers)) := by
  have hl1 : s < (addSetterDep s st).cells.length := by rw [addSetterDep_cells]; exact hlen
  have h1 : cellAt (modifyCell s (fun cc => { cc with rawVal := v }) (addSetterDep s st)) s
      = { cellAt st s with rawVal := v } := by
    rw [cellAt_modifyCell_self _ hl1, cellAt_addSetterDep]
  simp only [setVal, cellAt_addSetterDep, hne, Bool.false_eq_true, if_false, h1]
  rw [if_pos hsub]
  refine ⟨?_, ?_, ?_⟩
  · rw [scheduleChanged_changedStates, addDerivedState_changedStates,
      modifyCell_changedStates, addSetterDep_changedStates]
  · rw [scheduleChanged_derivedStates, addDerivedState_spec,
      modifyCell_derivedStates, addSetterDep_derivedStates]
  · rw [scheduleChanged_timers, addDerivedState_changedStates,
      modifyCell_changedStates, addSetterDep_changedStates,
      addDerivedState_timers, modifyCell_timers, addSetterDep_timers]

/-- Claim C2: setting `s.val` to a value strictly equal to `rawVal`
schedules nothing, touches no batch, and leaves every cell (in particular
`s.oldVal`, `s.rawVal`, `s._bindings`, `s._listeners`) unchanged. -/
theorem claim_C2_noop_set (st : GState) (s : Nat) (v : DomVal)
    (h : jsEq v (cellAt st s).rawVal = true) :
    (setVal s v st).cells = st.cells ∧
    (setVal s v st).changedStates = st.changedStates ∧
    (setVal s v st).derivedStates = st.derivedStates ∧
    (setVal s v st).timers = st.timers := by
  simp [setVal, cellAt_addSetterDep, h, addSetterDep_cells, addSetterDep_changedStates,
    addSetterDep_derivedStates, addSetterDep_timers]

/-- Witness for C2 at a concrete cell. -/
theorem claim_C2_noop_set_witness :
    jsEq (.num 1) (cellAt (state (.num 1) initState).2 0).rawVal = true ∧
    ((setVal 0 (.num 1) (state (.num 1) initState).2).cells
        = (state (.num 1) initState).2.cells ∧
      (setVal 0 (.num 1) (state (.num 1) initState).2).changedStates
        = (state (.num 1) initState).2.changedStates ∧
      (setVal 0 (.num 1) (state (.num 1) initState).2).derivedStates
        = (state (.num 1) initState).2.derivedStates ∧
      (setVal 0 (.num 1) (state (.num 1) initState).2).timers
        = (state (.num 1) initState).2.timers) :=
  ⟨by decide, claim_C2_noop_set (state (.num 1) initState).2 0 (.num 1) (by decide)⟩

/-- Claim C3: a changing assignment updates `rawVal` synchronously;
a cell with no bindings and no listeners commits `_oldVal := v` in the
same assignment, and a cell with at least one subscriber keeps its old
`_oldVal` (the commit is deferred to the flush). -/
theorem claim_C3_sync_raw_deferred_old (st : GState) (s : Nat) (v : DomVal)
    (hlen : s < st.cells.length)
    (hne : jsEq v (cellAt st s).rawVal = false) :
    (cellAt (setVal s v st) s).rawVal = v ∧
    ((cellAt st s)._bindings = [] ∧ (cellAt st s)._listeners = [] →
      (cellAt (setVal s v st) s)._oldVal = v) ∧
    ((cellAt st s)._bindings ≠ [] ∨ (cellAt st s)._listeners ≠ [] →
      (cellAt (setVal s v st) s)._oldVal = (cellAt st s)._oldVal) := by
  rw [cellAt_setVal_self st s v hlen hne]
  refine ⟨?_, ?_, ?_⟩
  · split <;> rfl
  · rintro ⟨hb, hl⟩
    rw [if_neg (by simp [hb, hl])]
  · intro h
    have hsub : (cellAt st s)._bindings.length + (cellAt st s)._listeners.length ≠ 0 := by
      rcases h with h | h
      · have := List.length_pos.mpr h; omega
      · have := List.length_pos.mpr h; omega
    rw [if_pos hsub]

/-- Witness for C3: an unobserved cell commits synchronously, and the
subscribed cell of the flush scenario keeps its old `_oldVal`. -/
theorem claim_C3_sync_raw_deferred_old_witness :
    (0 < (state (.num 1) initState).2.cells.length ∧
      jsEq (.num 5) (cellAt (state (.num 1) initState).2 0).rawVal = false ∧
      (cellAt (setVal 0 (.num 5) (state (.num 1) initState).2) 0).rawVal = .num 5 ∧
      (cellAt (setVal 0 (.num 5) (state (.num 1) initState).2) 0)._oldVal = .num 5) ∧
    (0 < scenarioDerive.2.cells.length ∧
      jsEq (.num 5) (cellAt scenarioDerive.2 0).rawVal = false ∧
      (cellAt (setVal 0 (.num 5) scenarioDerive.2) 0).rawVal = .num 5 ∧
      (cellAt (setVal 0 (.num 5) scenarioDerive.2) 0)._oldVal
        = (cellAt scenarioDerive.2 0)._oldVal) := by
  constructor
  · refine ⟨by decide, by decide, ?_, ?_⟩
    · exact (claim_C3_sync_raw_deferred_old (state (.num 1) initState).2 0 (.num 5)
        (by decide) (by decide)).1
    · exact (claim_C3_sync_raw_deferred_old (state (.num 1) initState).2 0 (.num 5)
        (by decide) (by decide)).2.1 (by decide)
  · refine ⟨by decide, by decide, ?_, ?_⟩
    · exact (claim_C3_sync_raw_deferred_old scenarioDerive.2 0 (.num 5)
        (by decide) (by decide)).1
    · exact (claim_C3_sync_raw_deferred_old scenarioDerive.2 0 (.num 5)
        (by decide) (by decide)).2.2 (by decide)

/-- A concrete world whose first flush has not yet run: `derivedStates`
is still `undefined`, and cell 0 has one listener. -/
def stC7 : GState :=
  ⟨[⟨.num 1, .num 1, [], [0]⟩], [⟨.lit .undef, 0, .always⟩], [],
    none, none, none, none, none, [], [], 0⟩

/-- Counterexample to C7 as stated: before the first flush ever runs,
`derivedStates` is still `undefined`, so `derivedStates?.add(this)` is a
no-op and the cell is not added to `derivedStates` even though the
assignment changes a subscribed cell. -/
theorem claim_C7_counterexample :
    jsEq (.num 5) (cellAt stC7 0).rawVal = false ∧
    (cellAt stC7 0)._listeners ≠ [] ∧
    0 ∉ ((setVal 0 (.num 5) stC7).derivedStates.getD []) := by
  decide

/-- Claim C7 as amended: a changing assignment to a subscribed cell adds
the cell to `changedStates`; it adds the cell to `derivedStates` only
when `derivedStates` is defined (it is `undefined` until a flush first
initializes it); and the flush timer is started exactly when
`changedStates` transitions from absent to present. -/
theorem claim_C7_amended_schedule (st : GState) (s : Nat) (v : DomVal)
    (hlen : s < st.cells.length)
    (hne : jsEq v (cellAt st s).rawVal = false)
    (hsub : (cellAt st s)._bindings.length + (cellAt st s)._listeners.length ≠ 0) :
    s ∈ ((setVal s v st).changedStates.getD []) ∧
    (setVal s v st).changedStates = some (setInsert (st.changedStates.getD []) s) ∧
    ((setVal s v st).derivedStates =
      (match st.derivedStates with
       | none => none
       | some l => some (setInsert l s))) ∧
    ((setVal s v st).timers =
      (match st.changedStates with
       | none => st.timers ++ [TimerKind.update]
       | some _ => st.timers)) := by
  obtain ⟨h1, h2, h3⟩ := setVal_sched st s v hlen hne hsub
  refine ⟨?_, h1, h2, h3⟩
  rw [h1]
  simp [mem_setInsert]

/-- Witness for the amended C7 at the concrete world `stC7`. -/
theorem claim_C7_amended_schedule_witness :
    (0 < stC7.cells.length ∧
      jsEq (.num 5) (cellAt stC7 0).rawVal = false ∧
      (cellAt stC7 0)._bindings.length + (cellAt stC7 0)._listeners.length ≠ 0) ∧
    0 ∈ ((setVal 0 (.num 5) stC7).changedStates.getD []) ∧
    (setVal 0 (.num 5) stC7).changedStates
      = some (setInsert (stC7.changedStates.getD []) 0) ∧
    ((setVal 0 (.num 5) stC7).derivedStates =
      (match stC7.derivedStates with
       | none => none
       | some l => some (setInsert l 0))) ∧
    ((setVal 0 (.num 5) stC7).timers =
      (match stC7.changedStates with
       | none => stC7.timers ++ [TimerKind.update]
       | some _ => stC7.timers)) :=
  ⟨⟨by decide, by decide, by decide⟩,
    claim_C7_amended_schedule stC7 0 (.num 5) (by decide) (by decide) (by decide)⟩

/-- Claim C8: the tree patch removes `old` when the replacement is
nullish, does nothing at all when the replacement is `old` itself, and
splices a distinct node `new` in place of `old`, detaching `old`. -/
theorem claim_C8_update (st : GState) (o n : Nat) :
    ((update (.node o) .null st).doc = st.doc.filter (fun x => x ≠ o) ∧
      o ∉ (update (.node o) .null st).doc) ∧
    ((update (.node o) .undef st).doc = st.doc.filter (fun x => x ≠ o) ∧
      o ∉ (update (.node o) .undef st).doc) ∧
    update (.node o) (.node o) st = st ∧
    (n ≠ o →
      (update (.node o) (.node n) st).doc
          = st.doc.map (fun x => if x = o then n else x) ∧
      o ∉ (update (.node o) (.node n) st).doc ∧
      (o ∈ st.doc → n ∈ (update (.node o) (.node n) st).doc)) := by
  refine ⟨⟨?_, ?_⟩, ⟨?_, ?_⟩, ?_, ?_⟩
  · simp [update, truthy]
  · simp [update, truthy, List.mem_filter]
  · simp [update, truthy]
  · simp [update, truthy, List.mem_filter]
  · simp [update, truthy, jsEq]
  · intro hne
    have hj : jsEq (.node n) (.node o) = false := by simp [jsEq, hne]
    refine ⟨?_, ?_, ?_⟩
    · simp [update, truthy, hj]
    · simp only [update, truthy, hj, Bool.false_eq_true, if_false, if_true]
      simp only [List.mem_map, not_exists]
      intro x
      rintro ⟨hx, heq⟩
      by_cases hxo : x = o
      · rw [if_pos hxo] at heq; exact hne heq
      · rw [if_neg hxo] at heq; exact hxo heq
    · intro ho
      simp only [update, truthy, hj, Bool.false_eq_true, if_false, if_true]
      exact List.mem_map.mpr ⟨o, ho, by simp⟩

/-- Witness for C8 on a concrete three-node document. -/
theorem claim_C8_update_witness :
    ((2 : Nat) ≠ 1 →
      (update (.node 1) (.node 2)
          { initState with doc := [0, 1, 3] }).doc
        = [0, 1, 3].map (fun x => if x = 1 then 2 else x) ∧
      1 ∉ (update (.node 1) (.node 2) { initState with doc := [0, 1, 3] }).doc ∧
      (1 ∈ [0, 1, 3] →
        2 ∈ (update (.node 1) (.node 2) { initState with doc := [0, 1, 3] }).doc)) ∧
    update (.node 1) (.node 1) { initState with doc := [0, 1, 3] }
      = { initState with doc := [0, 1, 3] } :=
  ⟨(claim_C8_update { initState with doc := [0, 1, 3] } 1 2).2.2.2,
    (claim_C8_update { initState with doc := [0, 1, 3] } 1 2).2.2.1⟩

/-- Claim C10: within a single flush, the listener work list of each
derivation-phase iteration and the binding work list of the binding phase
are deduplicated through a `Set`, so each surviving subscriber appears
exactly once; the phases fold over exactly those lists. -/
theorem claim_C10_dedup_queues (st : GState) (arr : List Nat) :
    (listenerQueue arr st).Nodup ∧
    (bindingQueue arr st).Nodup ∧
    derivePhaseBody st arr =
      (listenerQueue arr { st with derivedStates := some ([] : List Nat) }).foldl
        processListener
        (pruneListeners arr { st with derivedStates := some ([] : List Nat) }).1 ∧
    bindingPhase st arr =
      (bindingQueue arr st).foldl processBinding (pruneBindings arr st).1 :=
  ⟨nodup_setDedup _, nodup_setDedup _, rfl, rfl⟩

theorem deriveLoopGo_count_le (fuel : Nat) :
    ∀ (st : GState) (arr : List Nat), (deriveLoopGo st arr fuel).2 ≤ fuel := by
  induction fuel with
  | zero => intro st arr; simp [deriveLoopGo]
  | succ f ih =>
    intro st arr
    simp only [deriveLoopGo]
    split
    · exact Nat.succ_le_succ (ih _ _)
    · exact Nat.succ_le_succ (Nat.zero_le _)

/-- Claim C6: the derivation phase of a flush executes its loop body at
most 100 times on every input (the loop is total by construction, so it
terminates rather than looping forever); `afterDerivePhase` is exactly
what `updateDoms` runs. -/
theorem claim_C6_derive_loop_cap (st : GState) (arr : List Nat) :
    (deriveLoopGo st arr 100).2 ≤ 100 ∧
    afterDerivePhase st = (deriveLoopGo st (changedFiltered st) 100).1 :=
  ⟨deriveLoopGo_count_le 100 st arr, rfl⟩

theorem cellAt_commitOldVals_not_mem :
    ∀ (arr : List Nat) (st : GState) (s : Nat), s ∉ arr →
      cellAt (commitOldVals st arr) s = cellAt st s := by
  intro arr
  induction arr with
  | nil => intro st s _; rfl
  | cons h t ih =>
    intro st s hs
    have hsh : s ≠ h := by intro e; exact hs (e ▸ List.mem_cons_self h t)
    have hst : s ∉ t := fun hh => hs (List.mem_cons_of_mem _ hh)
    calc cellAt (commitOldVals st (h :: t)) s
        = cellAt (commitOldVals (modifyCell h (fun c => { c with _oldVal := c.rawVal }) st) t) s := rfl
      _ = cellAt (modifyCell h (fun c => { c with _oldVal := c.rawVal }) st) s := ih _ s hst
      _ = cellAt st s := cellAt_modifyCell_ne _ _ (Ne.symm hsh)

theorem commit_cell_self (h : Nat) (st : GState) :
    (cellAt (modifyCell h (fun c => { c with _oldVal := c.rawVal }) st) h)._oldVal
      = (cellAt (modifyCell h (fun c => { c with _oldVal := c.rawVal }) st) h).rawVal := by
  by_cases hl : h < st.cells.length
  · rw [cellAt_modifyCell_self _ hl]
  · rw [modifyCell_of_le _ (le_of_not_lt hl), cellAt_default (le_of_not_lt hl)]
    rfl

theorem commitOldVals_commits :
    ∀ (arr : List Nat) (st : GState) (s : Nat), s ∈ arr →
      (cellAt (commitOldVals st arr) s)._oldVal
        = (cellAt (commitOldVals st arr) s).rawVal := by
  intro arr
  induction arr with
  | nil => intro st s hs; cases hs
  | cons h t ih =>
    intro st s hs
    by_cases hst : s ∈ t
    · exact ih _ s hst
    · have hsh : s = h := by
        rcases List.mem_cons.mp hs with e | e
        · exact e
        · exact absurd e hst
      subst hsh
      have := cellAt_commitOldVals_not_mem t
        (modifyCell s (fun c => { c with _oldVal := c.rawVal }) st) s hst
      calc (cellAt (commitOldVals st (s :: t)) s)._oldVal
          = (cellAt (modifyCell s (fun c => { c with _oldVal := c.rawVal }) st) s)._oldVal := by
            rw [show commitOldVals st (s :: t)
              = commitOldVals (modifyCell s (fun c => { c with _oldVal := c.rawVal }) st) t from rfl,
              this]
        _ = (cellAt (modifyCell s (fun c => { c with _oldVal := c.rawVal }) st) s).rawVal :=
            commit_cell_self s st
        _ = (cellAt (commitOldVals st (s :: t)) s).rawVal := by
            rw [show commitOldVals st (s :: t)
              = commitOldVals (modifyCell s (fun c => { c with _oldVal := c.rawVal }) st) t from rfl,
              this]

/-- Claim C1: in the concrete scenario (`a` with value 1, the derivation
`b = derive(() => a.val * 2)`, then `a.val = 5` and the scheduled flush)
the flush leaves `b.val = 10` and `a.oldVal = 5`; and in general the
commit step of a flush sets `_oldVal := rawVal` for every cell of the
flush's final changed-and-differing set. -/
theorem claim_C1_flush_commit :
    ((cellAt scenarioFinal 1).rawVal = .num 10 ∧
      (cellAt scenarioFinal 0)._oldVal = .num 5) ∧
    ∀ (st : GState) (s : Nat), s ∈ finalChanged st →
      (cellAt (updateDoms st) s)._oldVal = (cellAt (updateDoms st) s).rawVal := by
  constructor
  · exact ⟨by decide, by decide⟩
  · intro st s hs
    have hrw : updateDoms st
        = commitOldVals
            (bindingPhase { afterDerivePhase st with changedStates := none }
              (finalChanged st))
            (finalChanged st) := rfl
    rw [hrw]
    exact commitOldVals_commits (finalChanged st) _ s hs

/-- Witness for C1's general commit statement at the scenario's flush. -/
theorem claim_C1_flush_commit_witness :
    0 ∈ finalChanged scenarioAfterSet ∧
    (cellAt (updateDoms scenarioAfterSet) 0)._oldVal
      = (cellAt (updateDoms scenarioAfterSet) 0).rawVal :=
  ⟨by decide, claim_C1_flush_commit.2 scenarioAfterSet 0 (by decide)⟩


theorem addForGarbageCollection_cells (c : Nat) (st : GState) :
    (addForGarbageCollection c st).cells = st.cells := rfl

theorem cellAt_addForGC (c d : Nat) (st : GState) :
    cellAt (addForGarbageCollection c st) d = cellAt st d := rfl

theorem modifyCell_forGC (c : Nat) (g : Cell → Cell) (st : GState) :
    (modifyCell c g st).forGC = st.forGC := rfl

theorem addForGC_mem (c x : Nat) (st : GState) :
    x ∈ ((addForGarbageCollection c st).forGC.getD []) ↔
      x ∈ (st.forGC.getD []) ∨ x = c := by
  cases h : st.forGC <;>
    simp [addForGarbageCollection, addAndScheduleOnFirst, h, mem_setInsert]

theorem registerSubscribers_cons (upd : Cell → Cell) (a : Nat) (t s : List Nat)
    (st : GState) :
    registerSubscribers upd (a :: t) s st =
      registerSubscribers upd t s
        (if a ∈ s then st else modifyCell a upd (addForGarbageCollection a st)) := by
  simp only [registerSubscribers, List.foldl_cons]

theorem cells_registerSubscribers (upd : Cell → Cell) (s : List Nat) :
    ∀ (g : List Nat) (st : GState),
      (registerSubscribers upd g s st).cells.length = st.cells.length := by
  intro g
  induction g with
  | nil => intro st; rfl
  | cons a t ih =>
    intro st
    rw [registerSubscribers_cons]
    by_cases has : a ∈ s
    · rw [if_pos has]; exact ih st
    · rw [if_neg has, ih]
      rw [cells_modifyCell, addForGarbageCollection_cells]

theorem registerSubscribers_spec (upd : Cell → Cell) (s : List Nat) :
    ∀ (g : List Nat) (st : GState) (d : Nat), g.Nodup →
      (∀ x ∈ g, x < st.cells.length) →
      (cellAt (registerSubscribers upd g s st) d =
        if d ∈ g ∧ d ∉ s then upd (cellAt st d) else cellAt st d) ∧
      (d ∈ ((registerSubscribers upd g s st).forGC.getD []) ↔
        d ∈ (st.forGC.getD []) ∨ (d ∈ g ∧ d ∉ s)) := by
  intro g
  induction g with
  | nil =>
    intro st d _ _
    constructor
    · simp [registerSubscribers]
    · simp [registerSubscribers]
  | cons a t ih =>
    intro st d hnd hlen
    obtain ⟨ha, hnt⟩ := List.nodup_cons.mp hnd
    rw [registerSubscribers_cons]
    by_cases has : a ∈ s
    · rw [if_pos has]
      obtain ⟨h1, h2⟩ := ih st d hnt (fun x hx => hlen x (List.mem_cons_of_mem _ hx))
      constructor
      · rw [h1]
        by_cases hd : d ∈ t ∧ d ∉ s
        · rw [if_pos hd, if_pos ⟨List.mem_cons_of_mem _ hd.1, hd.2⟩]
        · rw [if_neg hd, if_neg ?_]
          rintro ⟨hmem, hns⟩
          rcases List.mem_cons.mp hmem with rfl | hmem'
          · exact hns has
          · exact hd ⟨hmem', hns⟩
      · rw [h2]
        constructor
        · rintro (hx | ⟨hmem, hns⟩)
          · exact Or.inl hx
          · exact Or.inr ⟨List.mem_cons_of_mem _ hmem, hns⟩
        · rintro (hx | ⟨hmem, hns⟩)
          · exact Or.inl hx
          · rcases List.mem_cons.mp hmem with rfl | hmem'
            · exact absurd has hns
            · exact Or.inr ⟨hmem', hns⟩
    · rw [if_neg has]
      have hlenst' : ∀ x ∈ t,
          x < (modifyCell a upd (addForGarbageCollection a st)).cells.length := by
        intro x hx
        rw [cells_modifyCell, addForGarbageCollection_cells]
        exact hlen x (List.mem_cons_of_mem _ hx)
      obtain ⟨h1, h2⟩ := ih (modifyCell a upd (addForGarbageCollection a st)) d hnt hlenst'
      have hforstep : ∀ x, x ∈ ((modifyCell a upd (addForGarbageCollection a st)).forGC.getD [])
          ↔ x ∈ (st.forGC.getD []) ∨ x = a := by
        intro x
        rw [modifyCell_forGC]
        exact addForGC_mem a x st
      constructor
      · rw [h1]
        by_cases hd : d = a
        · subst hd
          rw [if_neg (fun hh => ha hh.1)]
          have hlena : d < (addForGarbageCollection d st).cells.length :=
            hlen d (List.mem_cons_self _ _)
          rw [cellAt_modifyCell_self _ hlena, cellAt_addForGC]
          rw [if_pos ⟨List.mem_cons_self _ _, has⟩]
        · rw [cellAt_modifyCell_ne _ _ (Ne.symm hd), cellAt_addForGC]
          by_cases hdt : d ∈ t ∧ d ∉ s
          · rw [if_pos hdt, if_pos ⟨List.mem_cons_of_mem _ hdt.1, hdt.2⟩]
          · rw [if_neg hdt, if_neg ?_]
            rintro ⟨hmem, hns⟩
            rcases List.mem_cons.mp hmem with rfl | hmem'
            · exact hd rfl
            · exact hdt ⟨hmem', hns⟩
      · rw [h2]
        constructor
        · rintro (hx | ⟨hmem, hns⟩)
          · rcases (hforstep d).mp hx with hx' | rfl
            · exact Or.inl hx'
            · exact Or.inr ⟨List.mem_cons_self _ _, has⟩
          · exact Or.inr ⟨List.mem_cons_of_mem _ hmem, hns⟩
        · rintro (hx | ⟨hmem, hns⟩)
          · exact Or.inl ((hforstep d).mpr (Or.inl hx))
          · rcases List.mem_cons.mp hmem with rfl | hmem'
            · exact Or.inl ((hforstep d).mpr (Or.inr rfl))
            · exact Or.inr ⟨hmem', hns⟩

/-- Claim C5: in the registration loops of `bind` and `derive`, for every
cell `d` in the captured getter dependency set, the new binding
(respectively listener) is appended to `d`'s subscriber collection and
`d` is marked for liveness collection exactly when `d` is not also in the
setter dependency set; a cell both read and written in the same tracked
call is never subscribed. -/
theorem claim_C5_subscription (g s : List Nat) (bid lid : Nat) (st : GState)
    (d : Nat) (hnd : g.Nodup) (hlen : ∀ x ∈ g, x < st.cells.length)
    (hd : d ∈ g) :
    ((cellAt (registerBindings g s bid st) d)._bindings =
      (cellAt st d)._bindings ++ (if d ∈ s then [] else [bid])) ∧
    (d ∈ ((registerBindings g s bid st).forGC.getD []) ↔
      (d ∈ (st.forGC.getD []) ∨ d ∉ s)) ∧
    ((cellAt (registerListeners g s lid st) d)._listeners =
      (cellAt st d)._listeners ++ (if d ∈ s then [] else [lid])) ∧
    (d ∈ ((registerListeners g s lid st).forGC.getD []) ↔
      (d ∈ (st.forGC.getD []) ∨ d ∉ s)) := by
  obtain ⟨hb1, hb2⟩ := registerSubscribers_spec
    (fun c => { c with _bindings := c._bindings ++ [bid] }) s g st d hnd hlen
  obtain ⟨hl1, hl2⟩ := registerSubscribers_spec
    (fun c => { c with _listeners := c._listeners ++ [lid] }) s g st d hnd hlen
  refine ⟨?_, ?_, ?_, ?_⟩
  · rw [show registerBindings g s bid st = registerSubscribers
      (fun c => { c with _bindings := c._bindings ++ [bid] }) g s st from rfl, hb1]
    by_cases hds : d ∈ s
    · rw [if_neg (fun hh => hh.2 hds), if_pos hds, List.append_nil]
    · rw [if_pos ⟨hd, hds⟩, if_neg hds]
  · rw [show registerBindings g s bid st = registerSubscribers
      (fun c => { c with _bindings := c._bindings ++ [bid] }) g s st from rfl, hb2]
    constructor
    · rintro (hx | ⟨_, hns⟩)
      · exact Or.inl hx
      · exact Or.inr hns
    · rintro (hx | hns)
      · exact Or.inl hx
      · exact Or.inr ⟨hd, hns⟩
  · rw [show registerListeners g s lid st = registerSubscribers
      (fun c => { c with _listeners := c._listeners ++ [lid] }) g s st from rfl, hl1]
    by_cases hds : d ∈ s
    · rw [if_neg (fun hh => hh.2 hds), if_pos hds, List.append_nil]
    · rw [if_pos ⟨hd, hds⟩, if_neg hds]
  · rw [show registerListeners g s lid st = registerSubscribers
      (fun c => { c with _listeners := c._listeners ++ [lid] }) g s st from rfl, hl2]
    constructor
    · rintro (hx | ⟨_, hns⟩)
      · exact Or.inl hx
      · exact Or.inr hns
    · rintro (hx | hns)
      · exact Or.inl hx
      · exact Or.inr ⟨hd, hns⟩

/-- A two-cell heap for the C5 witness. -/
def stC5 : GState :=
  ⟨[defaultCell, defaultCell], [], [], none, none, none, none, none, [], [], 0⟩

/-- Witness for C5: with getters `[0, 1]` and setters `[1]`, cell 0 (read
only) is subscribed and marked; the conclusion also shows cell 1 (read
and written) keeps its collections unchanged via the `if`. -/
theorem claim_C5_subscription_witness :
    (([0, 1] : List Nat).Nodup ∧ (∀ x ∈ ([0, 1] : List Nat), x < stC5.cells.length) ∧
      0 ∈ ([0, 1] : List Nat)) ∧
    ((cellAt (registerBindings [0, 1] [1] 7 stC5) 0)._bindings =
      (cellAt stC5 0)._bindings ++ (if 0 ∈ ([1] : List Nat) then [] else [7])) ∧
    (0 ∈ ((registerBindings [0, 1] [1] 7 stC5).forGC.getD []) ↔
      (0 ∈ (stC5.forGC.getD []) ∨ 0 ∉ ([1] : List Nat))) ∧
    ((cellAt (registerListeners [0, 1] [1] 9 stC5) 0)._listeners =
      (cellAt stC5 0)._listeners ++ (if 0 ∈ ([1] : List Nat) then [] else [9])) ∧
    (0 ∈ ((registerListeners [0, 1] [1] 9 stC5).forGC.getD []) ↔
      (0 ∈ (stC5.forGC.getD []) ∨ 0 ∉ ([1] : List Nat))) :=
  ⟨⟨by decide, by decide, by decide⟩,
    claim_C5_subscription [0, 1] [1] 7 9 stC5 0 (by decide) (by decide) (by decide)⟩

/-- The state in which `bind`'s tracked call evaluates its render
function: after the binding is created and the pending-new-derivations
list is cleared, with a fresh current dependency set installed. -/
def bindPre (f : Fn) (st : GState) : GState :=
  { st with bindings := st.bindings ++ [(⟨f, .undef⟩ : Binding)],
            curNewDerives := some [],
            curDeps := some ⟨[], []⟩ }

theorem registerSubscribers_nextNode (upd : Cell → Cell) (s : List Nat) :
    ∀ (g : List Nat) (st : GState),
      (registerSubscribers upd g s st).nextNode = st.nextNode := by
  intro g
  induction g with
  | nil => intro st; rfl
  | cons a t ih =>
    intro st
    rw [registerSubscribers_cons]
    by_cases has : a ∈ s
    · rw [if_pos has]; exact ih st
    · rw [if_neg has, ih]; rfl

theorem foldl_setListenerDom_nextNode (nd : DomVal) :
    ∀ (l : List Nat) (st : GState),
      (l.foldl (fun st lid => setListenerDom lid nd st) st).nextNode = st.nextNode := by
  intro l
  induction l with
  | nil => intro st; rfl
  | cons a t ih => intro st; exact ih _

/-- Claim C9: when the render function returns `null` or `undefined`
without throwing, `bind` returns that value as-is — the text-node
coercion applies only to non-nullish results lacking a `nodeType` — and
no `Text` node is allocated (the fresh-node counter is untouched after
the evaluation). -/
theorem claim_C9_bind_null_passthrough (f : Fn) (dom : DomVal) (st : GState)
    (v : DomVal) (hv : v = DomVal.null ∨ v = DomVal.undef)
    (heval : (evalExpr dom f (bindPre f st)).1 = some v) :
    (bind f dom st).1 = v ∧
    (bind f dom st).2.nextNode = (evalExpr dom f (bindPre f st)).2.nextNode := by
  simp only [bindPre] at heval ⊢
  simp only [bind, runAndCaptureDependencies]
  rw [heval]
  rcases hv with rfl | rfl <;>
    simp [coerceToNode, setBindingDom, foldl_setListenerDom_nextNode,
      registerSubscribers_nextNode, registerBindings]

/-- Witness for C9 with the render function `() => null`. -/
theorem claim_C9_bind_null_passthrough_witness :
    ((evalExpr .undef (.lit .null) (bindPre (.lit .null) initState)).1
        = some DomVal.null) ∧
    (bind (.lit .null) .undef initState).1 = DomVal.null ∧
    (bind (.lit .null) .undef initState).2.nextNode
      = (evalExpr .undef (.lit .null) (bindPre (.lit .null) initState)).2.nextNode :=
  ⟨by decide,
    (claim_C9_bind_null_passthrough (.lit .null) .undef initState DomVal.null
      (Or.inl rfl) (by decide)).1,
    (claim_C9_bind_null_passthrough (.lit .null) .undef initState DomVal.null
      (Or.inl rfl) (by decide)).2⟩



theorem addGetterDep_cells (c : Nat) (st : GState) :
    (addGetterDep c st).cells = st.cells := by
  cases h : st.curDeps <;> simp [addGetterDep, h]

theorem setVal_cells_length (c : Nat) (v : DomVal) (st : GState) :
    (setVal c v st).cells.length = st.cells.length := by
  by_cases h : jsEq v (cellAt (addSetterDep c st) c).rawVal = true
  · simp only [setVal]
    rw [if_pos h, addSetterDep_cells]
  · simp only [setVal]
    rw [if_neg h]
    split
    · rw [show ∀ st2 : GState, (scheduleChanged c st2).cells = st2.cells from
        fun st2 => scheduleChanged_cells c st2, addDerivedState_cells,
        cells_modifyCell, addSetterDep_cells]
    · rw [cells_modifyCell, cells_modifyCell, addSetterDep_cells]

theorem evalExpr_cells_length (arg : DomVal) :
    ∀ (e : Expr) (st : GState), (evalExpr arg e st).2.cells.length = st.cells.length := by
  intro e
  induction e with
  | lit v => intro st; rfl
  | theArg => intro st; rfl
  | readVal c =>
    intro st
    show (addGetterDep c st).cells.length = st.cells.length
    rw [addGetterDep_cells]
  | readOld c =>
    intro st
    show (addGetterDep c st).cells.length = st.cells.length
    rw [addGetterDep_cells]
  | assign c e ih =>
    intro st
    simp only [evalExpr]
    split
    · rename_i st2 heq
      have h2 := ih st; rw [heq] at h2; simpa using h2
    · rename_i v st2 heq
      have h2 := ih st; rw [heq] at h2
      simpa [setVal_cells_length] using h2
  | mul a b iha ihb =>
    intro st
    simp only [evalExpr]
    split
    · rename_i st2 heq
      have h2 := iha st; rw [heq] at h2; simpa using h2
    · rename_i va st2 heq
      have h2 := iha st; rw [heq] at h2
      split
      · rename_i st3 heq2
        have h3 := ihb st2; rw [heq2] at h3
        simp only [] at h2 h3 ⊢
        omega
      · rename_i vb st3 heq2
        have h3 := ihb st2; rw [heq2] at h3
        simp only [] at h2 h3 ⊢
        omega
  | seq a b iha ihb =>
    intro st
    simp only [evalExpr]
    split
    · rename_i st2 heq
      have h2 := iha st; rw [heq] at h2; simpa using h2
    · rename_i va st2 heq
      have h2 := iha st; rw [heq] at h2
      have h3 := ihb st2
      simp only [] at h2 h3 ⊢
      omega
  | throwErr => intro st; rfl



theorem setVal_noop_cells (st : GState) (s : Nat) (v : DomVal)
    (h : jsEq v (cellAt st s).rawVal = true) :
    (setVal s v st).cells = st.cells := by
  simp only [setVal]
  rw [if_pos (by rw [cellAt_addSetterDep]; exact h), addSetterDep_cells]

theorem cellAt_of_cells_eq {st1 st2 : GState} (h : st1.cells = st2.cells)
    (d : Nat) : cellAt st1 d = cellAt st2 d := by
  simp [cellAt, h]

theorem registerSubscribers_preserve (upd : Cell → Cell)
    (hupd : ∀ c, (upd c).rawVal = c.rawVal ∧ (upd c)._oldVal = c._oldVal)
    (s : List Nat) :
    ∀ (g : List Nat) (st : GState) (d : Nat),
      (cellAt (registerSubscribers upd g s st) d).rawVal = (cellAt st d).rawVal ∧
      (cellAt (registerSubscribers upd g s st) d)._oldVal = (cellAt st d)._oldVal := by
  intro g
  induction g with
  | nil => intro st d; exact ⟨rfl, rfl⟩
  | cons a t ih =>
    intro st d
    rw [registerSubscribers_cons]
    by_cases has : a ∈ s
    · rw [if_pos has]; exact ih st d
    · rw [if_neg has]
      obtain ⟨h1, h2⟩ := ih (modifyCell a upd (addForGarbageCollection a st)) d
      rw [h1, h2]
      by_cases hda : a = d
      · subst hda
        by_cases hl : a < st.cells.length
        · rw [cellAt_modifyCell_self _ (by rw [addForGarbageCollection_cells]; exact hl),
            cellAt_addForGC]
          exact hupd _
        · rw [modifyCell_of_le _ (by rw [addForGarbageCollection_cells]; exact le_of_not_lt hl)]
          exact ⟨rfl, rfl⟩
      · rw [cellAt_modifyCell_ne _ _ hda, cellAt_addForGC]
        exact ⟨rfl, rfl⟩

theorem deriveAnchor_cells (dom : DomVal) (lid : Nat) (st : GState) :
    (deriveAnchor dom lid st).2.cells = st.cells := by
  by_cases h : nullish dom = true
  · simp only [deriveAnchor, h, if_true]
    cases hc : st.curNewDerives <;> simp [hc]
  · simp [deriveAnchor, h]

theorem deriveAnchor_curDeps (dom : DomVal) (lid : Nat) (st : GState) :
    (deriveAnchor dom lid st).2.curDeps = st.curDeps := by
  by_cases h : nullish dom = true
  · simp only [deriveAnchor, h, if_true]
    cases hc : st.curNewDerives <;> simp [hc]
  · simp [deriveAnchor, h]

theorem deriveSetup_cells (f : Fn) (s : Nat) (dom : DomVal) (st : GState) :
    (deriveSetup f s dom st).cells = st.cells := by
  simp [deriveSetup, deriveAnchor_cells]

theorem cellAt_deriveSetup (f : Fn) (s : Nat) (dom : DomVal) (st : GState)
    (d : Nat) : cellAt (deriveSetup f s dom st) d = cellAt st d :=
  cellAt_of_cells_eq (deriveSetup_cells f s dom st) d



theorem setVal_raw_result (st : GState) (s : Nat) (v : DomVal)
    (hl : s < st.cells.length) :
    (cellAt (setVal s v st) s).rawVal = v := by
  by_cases h : jsEq v (cellAt st s).rawVal = true
  · rw [cellAt_of_cells_eq (setVal_noop_cells st s v h)]
    exact (jsEq_eq h).symm
  · rw [cellAt_setVal_self st s v hl (by rwa [Bool.not_eq_true] at h)]
    split <;> rfl

theorem derive_throw_parts (f : Fn) (dom : DomVal) (st : GState) (s : Nat)
    (hl : s < st.cells.length)
    (heval : (evalExpr ((cellAt st s).rawVal) f (derivePre f s dom st)).1 = none) :
    (cellAt (derive f (some s) dom st).2 s).rawVal = (cellAt st s).rawVal ∧
    (cellAt (evalExpr ((cellAt st s).rawVal) f (derivePre f s dom st)).2 s = cellAt st s →
      jsEq ((cellAt st s).rawVal) ((cellAt st s).rawVal) = true →
      (cellAt (derive f (some s) dom st).2 s)._oldVal = (cellAt st s)._oldVal) := by
  simp only [derivePre] at heval
  simp only [derive, runAndCaptureDependencies, registerListeners, cellAt_deriveSetup]
  rw [heval]
  have hpres := registerSubscribers_preserve
    (fun c => { c with _listeners := c._listeners ++ [st.listeners.length] })
    (fun c => ⟨rfl, rfl⟩)
  have hlen2 : s < (evalExpr ((cellAt st s).rawVal) f
      { deriveSetup f s dom st with curDeps := some ⟨[], []⟩ }).2.cells.length := by
    rw [evalExpr_cells_length]
    show s < (deriveSetup f s dom st).cells.length
    rw [deriveSetup_cells]
    exact hl
  constructor
  · rw [(hpres _ _ _ _).1]
    exact setVal_raw_result _ s _ hlen2
  · intro hcell hnan
    rw [(hpres _ _ _ _).2]
    have hraw : (cellAt { (evalExpr ((cellAt st s).rawVal) f
        { deriveSetup f s dom st with curDeps := some ⟨[], []⟩ }).2 with
          curDeps := (deriveSetup f s dom st).curDeps } s) = cellAt st s := by
      rw [cellAt_of_cells_eq rfl]
      exact hcell
    have hnoop := setVal_noop_cells _ s ((cellAt st s).rawVal)
      (by rw [hraw]; exact hnan)
    rw [cellAt_of_cells_eq hnoop, hraw]



theorem runAndCapture_restores (f : Fn) (arg : DomVal) (st : GState) :
    (runAndCaptureDependencies f arg st).2.2.curDeps = st.curDeps := rfl

theorem runAndCapture_throw_arg (f : Fn) (arg : DomVal) (st : GState)
    (h : (evalExpr arg f { st with curDeps := some ⟨[], []⟩ }).1 = none) :
    (runAndCaptureDependencies f arg st).1 = arg := by
  simp only [runAndCaptureDependencies]
  rw [h]

/-- A one-cell heap with a pending uncommitted value (`rawVal = 5`,
`_oldVal = 3`) and no subscribers, for the C4 counterexample. -/
def stC4 : GState :=
  ⟨[⟨.num 5, .num 3, [], []⟩], [], [], none, none, none, none, none, [], [], 0⟩

/-- A derivation function that assigns its own target cell and then
throws: `() => (s.val = 9, throw)`. -/
def fC4 : Fn := .seq (.assign 0 (.lit (.num 9))) .throwErr

/-- Counterexample to C4 as stated: a throwing derivation function that
itself assigns the target cell before throwing leaves `rawVal` unchanged
but moves `_oldVal` (here from 3 to 5): the recovery write
`s.val = arg` re-commits `_oldVal` on the unobserved cell. -/
theorem claim_C4_counterexample :
    (evalExpr ((cellAt stC4 0).rawVal) fC4 (derivePre fC4 0 .undef stC4)).1 = none ∧
    (cellAt (derive fC4 (some 0) .undef stC4).2 0).rawVal = (cellAt stC4 0).rawVal ∧
    (cellAt (derive fC4 (some 0) .undef stC4).2 0)._oldVal ≠ (cellAt stC4 0)._oldVal := by
  decide

/-- Claim C4 as amended: when the tracked function throws, the exception
is not propagated and `runAndCaptureDependencies` returns its input
argument unchanged; the previous current dependency set is restored in
all cases; a throwing derivation function passed through `derive` leaves
the target cell's `rawVal` unchanged; and it also leaves `_oldVal`
unchanged provided the function itself left the target cell untouched
when it threw and the cell's value is not `NaN`. -/
theorem claim_C4_amended_error_isolation (f : Fn) (arg0 dom : DomVal)
    (stA st : GState) (s : Nat) :
    ((runAndCaptureDependencies f arg0 stA).2.2.curDeps = stA.curDeps) ∧
    ((evalExpr arg0 f { stA with curDeps := some ⟨[], []⟩ }).1 = none →
      (runAndCaptureDependencies f arg0 stA).1 = arg0) ∧
    (s < st.cells.length →
      (evalExpr ((cellAt st s).rawVal) f (derivePre f s dom st)).1 = none →
      ((cellAt (derive f (some s) dom st).2 s).rawVal = (cellAt st s).rawVal ∧
        (cellAt (evalExpr ((cellAt st s).rawVal) f (derivePre f s dom st)).2 s
            = cellAt st s →
          jsEq ((cellAt st s).rawVal) ((cellAt st s).rawVal) = true →
          (cellAt (derive f (some s) dom st).2 s)._oldVal = (cellAt st s)._oldVal))) := by
  refine ⟨runAndCapture_restores f arg0 stA, runAndCapture_throw_arg f arg0 stA, ?_⟩
  intro hl heval
  exact derive_throw_parts f dom st s hl heval

/-- Witness for the amended C4 with a function that immediately throws. -/
theorem claim_C4_amended_error_isolation_witness :
    ((runAndCaptureDependencies .throwErr (.num 7) initState).2.2.curDeps
        = initState.curDeps) ∧
    ((evalExpr (.num 7) .throwErr { initState with curDeps := some ⟨[], []⟩ }).1
        = none) ∧
    ((runAndCaptureDependencies .throwErr (.num 7) initState).1 = .num 7) ∧
    (0 < stC4.cells.length) ∧
    ((evalExpr ((cellAt stC4 0).rawVal) .throwErr
        (derivePre .throwErr 0 .undef stC4)).1 = none) ∧
    ((cellAt (derive .throwErr (some 0) .undef stC4).2 0).rawVal
        = (cellAt stC4 0).rawVal) ∧
    ((cellAt (derive .throwErr (some 0) .undef stC4).2 0)._oldVal
        = (cellAt stC4 0)._oldVal) :=
  ⟨(claim_C4_amended_error_isolation .throwErr (.num 7) .undef initState stC4 0).1,
    by decide,
    (claim_C4_amended_error_isolation .throwErr (.num 7) .undef initState stC4 0).2.1
      (by decide),
    by decide,
    by decide,
    ((claim_C4_amended_error_isolation .throwErr (.num 7) .undef initState stC4 0).2.2
      (by decide) (by decide)).1,
    ((claim_C4_amended_error_isolation .throwErr (.num 7) .undef initState stC4 0).2.2
      (by decide) (by decide)).2 (by decide) (by decide)⟩


end Van
